import Mathlib

/-!
# AssignFlow — verification of the task/submission ledger and tool dispatcher

Shallow embedding of `src/assignflow.py` (class `DatabaseManager`, the
`AIChatWidget` tool dispatcher `_execute_tool`, and the assistant-session
message loop `send_message` / `_call_deepseek_api` / `cancel_generation`).

The SQLite tables `students`, `tasks`, `task_details` are modelled as lists
of rows in insertion (rowid) order, with the AUTOINCREMENT counters carried
explicitly.  SQL text comparison (BINARY collation on UTF-8 bytes) agrees
with Lean's codepoint-lexicographic `String` order, which is what we use.
Timestamps (`updated_at`) are modelled as an explicit clock value `now`
passed to every statement that writes `CURRENT_TIMESTAMP`.  The Python
`sqlite3` connection never executes `PRAGMA foreign_keys=ON`, so foreign
keys are NOT enforced; the embedding therefore performs no referential
check on insert, exactly like the source.
-/

namespace AssignFlow

/-- Row of the `students` table (surrogate id and created_at omitted:
no modelled operation reads them). -/
structure Student where
  student_id : String
  name : String
  class_ : String
  deriving Repr, DecidableEq

/-- Row of the `tasks` table. `id` is the AUTOINCREMENT key, `date` an
ISO date string (SQLite stores it as TEXT). -/
structure TaskRow where
  id : Nat
  name : String
  date : String
  deriving Repr, DecidableEq

/-- Row of the `task_details` table: surrogate `id` (AUTOINCREMENT),
the composite key `(task_id, student_id)` (UNIQUE in the schema),
`status` (`"missing"` or `"submitted"`), optional `grade`, and the
`updated_at` timestamp. -/
structure TaskDetail where
  id : Nat
  task_id : Nat
  student_id : String
  status : String
  grade : Option String
  updated_at : Nat
  deriving Repr, DecidableEq

/-- The whole database state: the three tables in rowid order plus the
AUTOINCREMENT counters for `tasks` and `task_details`. -/
structure DBState where
  students : List Student
  tasks : List TaskRow
  task_details : List TaskDetail
  next_task_id : Nat
  next_td_id : Nat
  deriving Repr, DecidableEq

/-- The UNIQUE constraints of the schema: `students.student_id` is unique
and `task_details(task_id, student_id)` is unique.  Every state reachable
through the SQLite schema satisfies this. -/
def WF (s : DBState) : Prop :=
  (s.students.map (·.student_id)).Nodup ∧
  (s.task_details.map (fun td => (td.task_id, td.student_id))).Nodup

instance (s : DBState) : Decidable (WF s) := by
  unfold WF; infer_instance

/-- `ORDER BY class, student_id` comparison on students. -/
def classIdLe (a b : Student) : Prop :=
  a.class_ < b.class_ ∨ (a.class_ = b.class_ ∧ a.student_id ≤ b.student_id)

instance : DecidableRel classIdLe := by
  unfold classIdLe; infer_instance

instance : IsTotal Student classIdLe := by
  constructor
  intro a b
  rcases lt_trichotomy a.class_ b.class_ with h | h | h
  · exact Or.inl (Or.inl h)
  · rcases le_total a.student_id b.student_id with h2 | h2
    · exact Or.inl (Or.inr ⟨h, h2⟩)
    · exact Or.inr (Or.inr ⟨h.symm, h2⟩)
  · exact Or.inr (Or.inl h)

instance : IsTrans Student classIdLe := by
  constructor
  intro a b c hab hbc
  rcases hab with h1 | ⟨h1, h1'⟩
  · rcases hbc with h2 | ⟨h2, _⟩
    · exact Or.inl (h1.trans h2)
    · exact Or.inl (h2 ▸ h1)
  · rcases hbc with h2 | ⟨h2, h2'⟩
    · exact Or.inl (h1 ▸ h2)
    · exact Or.inr ⟨h1.trans h2, h1'.trans h2'⟩

/-- `ORDER BY student_id` comparison on students. -/
def idLe (a b : Student) : Prop := a.student_id ≤ b.student_id

instance : DecidableRel idLe := by
  unfold idLe; infer_instance

instance : IsTotal Student idLe :=
  ⟨fun a b => le_total a.student_id b.student_id⟩

instance : IsTrans Student idLe :=
  ⟨fun _ _ _ h1 h2 => le_trans h1 h2⟩

/-! ## DatabaseManager operations

Each `def` below embeds the method of the same name.  Methods that execute
INSERT/UPDATE/DELETE return the new `DBState`; read paths that the source
routes through `ensure_task_students` return the result *and* the new
state, because that backfill writes. -/

/-- `DatabaseManager.add_student`: INSERT .. ON CONFLICT(student_id) DO
UPDATE SET name, class.  On conflict the existing row is updated in place;
otherwise a row is appended. -/
def add_student (s : DBState) (student_id name class_ : String) : DBState :=
  if s.students.any (fun st => st.student_id == student_id) then
    { s with students := s.students.map (fun st =>
        if st.student_id == student_id then
          { st with name := name, class_ := class_ }
        else st) }
  else
    { s with students := s.students ++ [⟨student_id, name, class_⟩] }

/-- `DatabaseManager.get_student`: SELECT * FROM students WHERE
student_id = ? (fetchone). -/
def get_student (s : DBState) (student_id : String) : Option Student :=
  s.students.find? (fun st => st.student_id == student_id)

/-- `DatabaseManager.get_all_students`: SELECT * FROM students
ORDER BY class, student_id. -/
def get_all_students (s : DBState) : List Student :=
  s.students.insertionSort classIdLe

/-- `DatabaseManager.get_students_by_class`: SELECT * FROM students
WHERE class = ? ORDER BY student_id. -/
def get_students_by_class (s : DBState) (class_name : String) : List Student :=
  (s.students.filter (fun st => st.class_ == class_name)).insertionSort idLe

/-- The value of a digit string, most significant first. -/
def digitsVal (l : List Char) : Nat :=
  l.foldl (fun acc c => acc * 10 + (c.toNat - 48)) 0

/-- Strip an optional leading `-`/`+` sign, returning the sign and the
rest. -/
def stripSign (cs : List Char) : Int × List Char :=
  if cs.head? = some '-' then (-1, cs.tail)
  else if cs.head? = some '+' then (1, cs.tail)
  else (1, cs)

/-- SQLite `CAST(text AS INTEGER)`: the longest integer prefix (optional
sign, then digits) after leading spaces; `0` when there is none. -/
def sqlite_cast_int (t : String) : Int :=
  let cs := t.data.dropWhile (· == ' ')
  let sd := stripSign cs
  sd.1 * (digitsVal (sd.2.takeWhile (·.isDigit)) : Nat)

/-- Python `int(str)`: strict — optional surrounding spaces, an optional
sign and a nonempty digit string; anything else raises `ValueError`
(`none`). -/
def python_int (t : String) : Option Int :=
  let cs := ((t.data.dropWhile (· == ' ')).reverse.dropWhile (· == ' ')).reverse
  let sd := stripSign cs
  if sd.2 ≠ [] ∧ sd.2.all (·.isDigit) then
    some (sd.1 * (digitsVal sd.2 : Nat))
  else
    none

/-- `DatabaseManager.get_students_by_id_range`: SELECT * FROM students
WHERE CAST(student_id AS INTEGER) BETWEEN int(start_id) AND int(end_id)
ORDER BY student_id.  `none` models the `ValueError` that Python's
`int()` raises on a non-numeric bound. -/
def get_students_by_id_range (s : DBState) (start_id end_id : String) :
    Option (List Student) :=
  match python_int start_id, python_int end_id with
  | some lo, some hi =>
      some ((s.students.filter (fun st =>
        lo ≤ sqlite_cast_int st.student_id ∧
          sqlite_cast_int st.student_id ≤ hi)).insertionSort idLe)
  | _, _ => none

/-- `DatabaseManager.get_all_classes`: SELECT DISTINCT class FROM students
ORDER BY class. -/
def get_all_classes (s : DBState) : List String :=
  ((s.students.map (·.class_)).dedup).insertionSort (· ≤ ·)

/-- `DatabaseManager.delete_student`: DELETE FROM task_details WHERE
student_id = ?; DELETE FROM students WHERE student_id = ?. -/
def delete_student (s : DBState) (student_id : String) : DBState :=
  { s with
    task_details := s.task_details.filter (fun td => td.student_id ≠ student_id),
    students := s.students.filter (fun st => st.student_id ≠ student_id) }

/-- `DatabaseManager.update_student`: UPDATE name and/or class when the
optional arguments are not None. -/
def update_student (s : DBState) (student_id : String)
    (name class_ : Option String) : DBState :=
  { s with students := s.students.map (fun st =>
      if st.student_id == student_id then
        { st with name := name.getD st.name, class_ := class_.getD st.class_ }
      else st) }

/-- `DatabaseManager.get_or_create_today_task`: SELECT by date, else
INSERT a task named `作业-<today>` dated today. -/
def get_or_create_today_task (today : String) (s : DBState) :
    TaskRow × DBState :=
  match s.tasks.find? (fun t => t.date == today) with
  | some t => (t, s)
  | none =>
      let t : TaskRow := ⟨s.next_task_id, "作业-" ++ today, today⟩
      (t, { s with tasks := s.tasks ++ [t],
                   next_task_id := s.next_task_id + 1 })

/-- One step of the max-by-date scan behind `ORDER BY date DESC LIMIT 1`. -/
def latestStep (acc : Option TaskRow) (t : TaskRow) : Option TaskRow :=
  match acc with
  | none => some t
  | some m => if m.date < t.date then some t else acc

/-- `SELECT * FROM tasks ORDER BY date DESC LIMIT 1`: a row of maximal
date (the earliest-stored one among ties), `none` on an empty table. -/
def latestTask (s : DBState) : Option TaskRow :=
  s.tasks.foldl latestStep none

/-- `DatabaseManager.get_current_task`: the latest task by date, else
create today's. -/
def get_current_task (today : String) (s : DBState) : TaskRow × DBState :=
  match latestTask s with
  | some t => (t, s)
  | none => get_or_create_today_task today s

/-- The `executemany` INSERT of `ensure_task_students`: one
`status='missing'` row per listed student id, with consecutive
AUTOINCREMENT ids starting at `next_id`. -/
def backfillRows (now task_id : Nat) : Nat → List String → List TaskDetail
  | _, [] => []
  | next_id, sid :: rest =>
      ⟨next_id, task_id, sid, "missing", none, now⟩ ::
        backfillRows now task_id (next_id + 1) rest

/-- `SELECT .. FROM task_details WHERE task_id=?`: the rows of one task. -/
def taskRowsFor (s : DBState) (tid : Nat) : List TaskDetail :=
  s.task_details.filter (fun td => td.task_id == tid)

/-- The `missing_ids` list computed by `ensure_task_students`: enrolled
student ids with no `task_details` row under `tid`, in roster order. -/
def missingIds (s : DBState) (tid : Nat) : List String :=
  (s.students.map (·.student_id)).filter (fun sid =>
    !(((taskRowsFor s tid).map (·.student_id)).contains sid))

/-- `DatabaseManager.ensure_task_students`: when the task has fewer
`task_details` rows than there are students, INSERT a `status='missing'`
row for every student that has none under `task_id`, in roster order. -/
def ensure_task_students (now : Nat) (s : DBState) (task_id : Nat) : DBState :=
  if (taskRowsFor s task_id).length < s.students.length then
    { s with
      task_details :=
        s.task_details ++ backfillRows now task_id s.next_td_id (missingIds s task_id),
      next_td_id := s.next_td_id + (missingIds s task_id).length }
  else s

/-- The UNIQUE(task_id, student_id) key comparison the upserts and joins
use. -/
def keyMatch (task_id : Nat) (student_id : String) (td : TaskDetail) : Bool :=
  td.task_id == task_id && td.student_id == student_id

/-- `DatabaseManager.submit_student`: INSERT (task_id, student_id,
'submitted') ON CONFLICT(task_id, student_id) DO UPDATE SET
status='submitted', updated_at=CURRENT_TIMESTAMP — the grade column is
untouched on conflict. -/
def submit_student (now : Nat) (s : DBState) (task_id : Nat)
    (student_id : String) : DBState :=
  if s.task_details.any (keyMatch task_id student_id) then
    { s with task_details := s.task_details.map (fun td =>
        if keyMatch task_id student_id td then
          { td with status := "submitted", updated_at := now }
        else td) }
  else
    { s with
      task_details := s.task_details ++
        [⟨s.next_td_id, task_id, student_id, "submitted", none, now⟩],
      next_td_id := s.next_td_id + 1 }

/-- `DatabaseManager.set_grade`: INSERT (task_id, student_id, 'submitted',
grade) ON CONFLICT DO UPDATE SET grade=excluded.grade, status='submitted',
updated_at=CURRENT_TIMESTAMP. -/
def set_grade (now : Nat) (s : DBState) (task_id : Nat)
    (student_id grade : String) : DBState :=
  if s.task_details.any (keyMatch task_id student_id) then
    { s with task_details := s.task_details.map (fun td =>
        if keyMatch task_id student_id td then
          { td with status := "submitted", grade := some grade, updated_at := now }
        else td) }
  else
    { s with
      task_details := s.task_details ++
        [⟨s.next_td_id, task_id, student_id, "submitted", some grade, now⟩],
      next_td_id := s.next_td_id + 1 }

/-- One row of the `get_task_details` result: student columns joined with
`COALESCE(td.status,'missing')` and `td.grade`. -/
structure DetailRow where
  student_id : String
  name : String
  class_ : String
  status : String
  grade : Option String
  deriving Repr, DecidableEq

/-- The LEFT JOIN row for one student: the `task_details` row with this
`(task_id, student_id)` key, if any (the schema makes it unique). -/
def joinDetail (s : DBState) (task_id : Nat) (student_id : String) :
    Option TaskDetail :=
  s.task_details.find? (keyMatch task_id student_id)

/-- `DatabaseManager.get_task_details`: runs `ensure_task_students` first
(a write!), then students LEFT JOIN task_details ORDER BY class,
student_id with `COALESCE(td.status, 'missing')`. -/
def get_task_details (now : Nat) (s : DBState) (task_id : Nat) :
    List DetailRow × DBState :=
  let s1 := ensure_task_students now s task_id
  ((s1.students.insertionSort classIdLe).map (fun st =>
      let td := joinDetail s1 task_id st.student_id
      ⟨st.student_id, st.name, st.class_,
        (td.map (·.status)).getD "missing", td.bind (·.grade)⟩),
   s1)

/-- `DatabaseManager.get_submitted_students`: runs `ensure_task_students`
first, then task_details JOIN students WHERE status='submitted'
ORDER BY class, student_id. -/
def get_submitted_students (now : Nat) (s : DBState) (task_id : Nat) :
    List Student × DBState :=
  let s1 := ensure_task_students now s task_id
  ((s1.students.filter (fun st =>
      match joinDetail s1 task_id st.student_id with
      | some td => td.status == "submitted"
      | none => false)).insertionSort classIdLe,
   s1)

/-- `DatabaseManager.get_missing_students`: runs `ensure_task_students`
first, then students LEFT JOIN task_details WHERE td.status IS NULL OR
td.status='missing', optionally filtered by class; ORDER BY student_id
(class filter) or class, student_id. -/
def get_missing_students (now : Nat) (s : DBState) (task_id : Nat)
    (class_name : Option String) : List Student × DBState :=
  let s1 := ensure_task_students now s task_id
  let missing := s1.students.filter (fun st =>
    match joinDetail s1 task_id st.student_id with
    | some td => td.status == "missing"
    | none => true)
  (match class_name with
   | some c => (missing.filter (fun st => st.class_ == c)).insertionSort idLe
   | none => missing.insertionSort classIdLe,
   s1)

/-- One row of the `get_student_history` result: tasks LEFT JOIN
task_details, so `status`/`grade` are NULL when the student has no row
under that task. -/
structure HistoryRow where
  task_id : Nat
  date : String
  task_name : String
  status : Option String
  grade : Option String
  deriving Repr, DecidableEq

/-- `ORDER BY t.date DESC` on tasks (`dateGe` so larger dates first). -/
def dateGe (a b : TaskRow) : Prop := b.date ≤ a.date

instance : DecidableRel dateGe := by
  unfold dateGe; infer_instance

instance : IsTotal TaskRow dateGe :=
  ⟨fun a b => (le_total b.date a.date).imp id id⟩

instance : IsTrans TaskRow dateGe :=
  ⟨fun _ _ _ h1 h2 => le_trans h2 h1⟩

/-- `DatabaseManager.get_student_history`: tasks LEFT JOIN task_details
ON task and student, ORDER BY t.date DESC.  A pure read: no
`ensure_task_students`, no writes. -/
def get_student_history (s : DBState) (student_id : String) :
    List HistoryRow :=
  (s.tasks.insertionSort dateGe).map (fun t =>
    match s.task_details.find? (keyMatch t.id student_id) with
    | some td => ⟨t.id, t.date, t.name, some td.status, td.grade⟩
    | none => ⟨t.id, t.date, t.name, none, none⟩)

/-- `DatabaseManager.get_all_tasks`: SELECT * FROM tasks ORDER BY date
DESC. -/
def get_all_tasks (s : DBState) : List TaskRow :=
  s.tasks.insertionSort dateGe

/-- `DatabaseManager.get_today_stats`: `get_current_task` (which may
create today's task on an empty table) then `get_task_details` (which
backfills); returns (total, submitted, missing). -/
def get_today_stats (today : String) (now : Nat) (s : DBState) :
    (Nat × Nat × Nat) × DBState :=
  let ts := get_current_task today s
  let dts := get_task_details now ts.2 ts.1.id
  let total := dts.1.length
  let submitted := (dts.1.filter (fun d => d.status == "submitted")).length
  ((total, submitted, total - submitted), dts.2)

/-! ## JSON values and `json.loads`

`AIChatWidget._execute_tool` begins with `args = json.loads(
tool_call.function.arguments)` — notably *outside* its `try` block.  We
model the Python `json` module on the fragment the tool protocol uses
(null, booleans, integers, strings with the common escapes, arrays,
objects); a string outside the fragment, or malformed, parses to `none`,
which stands for the `json.JSONDecodeError` the library raises. -/

inductive Json where
  | null : Json
  | jbool (b : Bool) : Json
  | jnum (n : Int) : Json
  | jstr (s : String) : Json
  | jarr (xs : List Json) : Json
  | jobj (kvs : List (String × Json)) : Json
  deriving Repr

/-- Skip JSON whitespace. -/
def skipWs : List Char → List Char
  | c :: cs =>
      if c == ' ' || c == '\n' || c == '\t' || c == '\r' then skipWs cs
      else c :: cs
  | [] => []

/-- Parse the body of a string literal (opening quote already consumed),
with the escapes `\" \\ \/ \n \t \r`. -/
def parseStringBody : Nat → List Char → List Char → Option (String × List Char)
  | 0, _, _ => none
  | _, [], _ => none
  | fuel + 1, c :: rest, acc =>
      if c == '"' then some (String.mk acc.reverse, rest)
      else if c == '\\' then
        match rest with
        | '"' :: rest2 => parseStringBody fuel rest2 ('"' :: acc)
        | '\\' :: rest2 => parseStringBody fuel rest2 ('\\' :: acc)
        | '/' :: rest2 => parseStringBody fuel rest2 ('/' :: acc)
        | 'n' :: rest2 => parseStringBody fuel rest2 ('\n' :: acc)
        | 't' :: rest2 => parseStringBody fuel rest2 ('\t' :: acc)
        | 'r' :: rest2 => parseStringBody fuel rest2 ('\r' :: acc)
        | _ => none
      else parseStringBody fuel rest (c :: acc)

/-- Digit run to an integer literal; `none` when a fraction or exponent
follows (floats are outside the modelled fragment). -/
def parseIntTail (sign : Int) (cs : List Char) : Option (Json × List Char) :=
  let digits := cs.takeWhile (·.isDigit)
  let rest := cs.dropWhile (·.isDigit)
  if digits.isEmpty then none
  else match rest with
    | '.' :: _ => none
    | 'e' :: _ => none
    | 'E' :: _ => none
    | _ => some (.jnum (sign *
        (digits.foldl (fun acc c => acc * 10 + (c.toNat - 48)) 0 : Nat)), rest)

mutual

/-- Parse one JSON value. -/
def parseValue : Nat → List Char → Option (Json × List Char)
  | 0, _ => none
  | fuel + 1, cs =>
      match skipWs cs with
      | [] => none
      | c :: rest =>
          if c == '"' then
            (parseStringBody (rest.length + 1) rest []).map
              (fun p => (.jstr p.1, p.2))
          else if c == Char.ofNat 123 then
            match skipWs rest with
            | c2 :: rest2 =>
                if c2 == Char.ofNat 125 then some (.jobj [], rest2)
                else parseMembers fuel (c2 :: rest2)
            | [] => none
          else if c == '[' then
            match skipWs rest with
            | ']' :: rest2 => some (.jarr [], rest2)
            | rest2 => (parseElems fuel rest2).map (fun p => (.jarr p.1, p.2))
          else if c == '-' then parseIntTail (-1) rest
          else if c.isDigit then parseIntTail 1 (c :: rest)
          else match c :: rest with
            | 't' :: 'r' :: 'u' :: 'e' :: rest2 => some (.jbool true, rest2)
            | 'f' :: 'a' :: 'l' :: 's' :: 'e' :: rest2 => some (.jbool false, rest2)
            | 'n' :: 'u' :: 'l' :: 'l' :: rest2 => some (.null, rest2)
            | _ => none

/-- Parse the members of an object after a first key is known to start. -/
def parseMembers : Nat → List Char → Option (Json × List Char)
  | 0, _ => none
  | fuel + 1, cs =>
      match skipWs cs with
      | '"' :: rest =>
          match parseStringBody (rest.length + 1) rest [] with
          | none => none
          | some (key, rest2) =>
              match skipWs rest2 with
              | ':' :: rest3 =>
                  match parseValue fuel rest3 with
                  | none => none
                  | some (v, rest4) =>
                      match skipWs rest4 with
                      | ',' :: rest5 =>
                          match parseMembers fuel rest5 with
                          | some (.jobj kvs, rest6) =>
                              some (.jobj ((key, v) :: kvs), rest6)
                          | _ => none
                      | c :: rest5 =>
                          if c == Char.ofNat 125 then
                            some (.jobj [(key, v)], rest5)
                          else none
                      | [] => none
              | _ => none
      | _ => none

/-- Parse the elements of a non-empty array. -/
def parseElems : Nat → List Char → Option (List Json × List Char)
  | 0, _ => none
  | fuel + 1, cs =>
      match parseValue fuel cs with
      | none => none
      | some (v, rest) =>
          match skipWs rest with
          | ',' :: rest2 =>
              match parseElems fuel rest2 with
              | some (vs, rest3) => some (v :: vs, rest3)
              | none => none
          | ']' :: rest2 => some ([v], rest2)
          | _ => none

end

/-- Python `json.loads` on the modelled fragment: the whole string must
be one value with only whitespace around it; `none` models
`json.JSONDecodeError`. -/
def json_loads (t : String) : Option Json :=
  match parseValue (t.length + 1) t.data with
  | some (v, rest) => if skipWs rest == [] then some v else none
  | none => none

/-! ## The tool dispatcher `AIChatWidget._execute_tool` -/

/-- An accumulated tool call: `tool_call.id`, `.function.name`,
`.function.arguments` (a raw string). -/
structure ToolCall where
  id : String
  name : String
  arguments : String
  deriving Repr, DecidableEq

/-- The widget's surrounding state that `_execute_tool` reads:
`self.main.current_task` and the current date (for `get_today_stats`). -/
structure MainCtx where
  current_task : Option TaskRow
  today : String
  deriving Repr, DecidableEq

/-- The only exception that can escape `_execute_tool`: `json.loads`
raising on a malformed argument string, since that call sits above the
`try`.  Everything inside the `try` is caught by `except Exception`. -/
inductive PyErr where
  | jsonDecodeError : PyErr
  deriving Repr, DecidableEq

/-- Python `str(KeyError(k))`, i.e. the key wrapped in apostrophes. -/
def keyErrStr (k : String) : String :=
  String.mk [Char.ofNat 39] ++ k ++ String.mk [Char.ofNat 39]

/-- `args[k]` on the parsed arguments: a missing key raises `KeyError`
(caught by the dispatcher's `try`), a non-object raises `TypeError`. -/
def dictGet (j : Json) (k : String) : Except String Json :=
  match j with
  | .jobj kvs =>
      match kvs.find? (fun p => p.1 == k) with
      | some p => .ok p.2
      | none => .error (keyErrStr k)
  | _ => .error "TypeError: argument is not an object"

/-- `args.get(k)` (after `args` is known to be a dict). -/
def dictGetOpt (j : Json) (k : String) : Option Json :=
  match j with
  | .jobj kvs => (kvs.find? (fun p => p.1 == k)).map (·.2)
  | _ => none

/-- A JSON argument bound into a TEXT column comparison.  SQLite applies
TEXT affinity to a scalar compared against `student_id`/`class`; `none`
(NULL or an unbindable container) matches no row. -/
def bindText (j : Json) : Option String :=
  match j with
  | .jstr s => some s
  | .jnum n => some (toString n)
  | .jbool b => some (if b then "1" else "0")
  | _ => none

/-- A JSON argument bound into the INTEGER `task_id` comparison; the
schema only ever generates nonnegative ids. -/
def bindTaskId (j : Json) : Option Nat :=
  match j with
  | .jnum n => if n < 0 then none else some n.toNat
  | .jbool b => some (if b then 1 else 0)
  | .jstr s =>
      match python_int s with
      | some n => if n < 0 then none else some n.toNat
      | none => none
  | _ => none

/-- Render an optional TEXT value as JSON (`null` for NULL). -/
def dumpStr : Option String → String
  | some s => "\"" ++ s ++ "\""
  | none => "null"

/-- `json.dumps` of one student row. -/
def dumpsStudent (st : Student) : String :=
  "\x7b\"student_id\": \"" ++ st.student_id ++ "\", \"name\": \"" ++
    st.name ++ "\", \"class\": \"" ++ st.class_ ++ "\"\x7d"

/-- `json.dumps` of a student list. -/
def dumpsStudents (l : List Student) : String :=
  "[" ++ String.intercalate ", " (l.map dumpsStudent) ++ "]"

/-- `json.dumps` of the class-name list. -/
def dumpsClasses (l : List String) : String :=
  "[" ++ String.intercalate ", " (l.map (fun c => "\"" ++ c ++ "\"")) ++ "]"

/-- `json.dumps` of a task list. -/
def dumpsTasks (l : List TaskRow) : String :=
  "[" ++ String.intercalate ", " (l.map (fun t =>
    "\x7b\"id\": " ++ toString t.id ++ ", \"name\": \"" ++ t.name ++
      "\", \"date\": \"" ++ t.date ++ "\"\x7d")) ++ "]"

/-- `json.dumps` of a `get_task_details` result. -/
def dumpsDetails (l : List DetailRow) : String :=
  "[" ++ String.intercalate ", " (l.map (fun d =>
    "\x7b\"student_id\": \"" ++ d.student_id ++ "\", \"name\": \"" ++
      d.name ++ "\", \"class\": \"" ++ d.class_ ++ "\", \"status\": \"" ++
      d.status ++ "\", \"grade\": " ++ dumpStr d.grade ++ "\x7d")) ++ "]"

/-- `json.dumps` of a `get_student_history` result. -/
def dumpsHistory (l : List HistoryRow) : String :=
  "[" ++ String.intercalate ", " (l.map (fun h =>
    "\x7b\"task_id\": " ++ toString h.task_id ++ ", \"date\": \"" ++
      h.date ++ "\", \"task_name\": \"" ++ h.task_name ++
      "\", \"status\": " ++ dumpStr h.status ++ ", \"grade\": " ++
      dumpStr h.grade ++ "\x7d")) ++ "]"

/-- The dispatch body of `_execute_tool` — everything inside the `try`.
`Except.error` here is a Python exception that the `except Exception`
clause will catch; the database is unchanged on that path because each
branch evaluates its `args[...]` subscripts before touching the
database. -/
def executeBody (now : Nat) (ctx : MainCtx) (db : DBState) (name : String)
    (args : Json) : Except String (String × DBState) :=
  if name == "get_student_info" then do
    let v ← dictGet args "student_id"
    match (bindText v).bind (get_student db) with
    | some st => pure (dumpsStudent st, db)
    | none => pure ("未找到", db)
  else if name == "get_students_by_class" then do
    let v ← dictGet args "class_name"
    match bindText v with
    | some c => pure (dumpsStudents (get_students_by_class db c), db)
    | none => pure (dumpsStudents [], db)
  else if name == "get_students_by_id_range" then do
    let v1 ← dictGet args "start_id"
    let v2 ← dictGet args "end_id"
    match bindText v1, bindText v2 with
    | some a, some b =>
        match get_students_by_id_range db a b with
        | some l => pure (dumpsStudents l, db)
        | none => .error "ValueError: invalid literal for int()"
    | _, _ => .error "TypeError: int() argument"
  else if name == "get_all_classes" then
    pure (dumpsClasses (get_all_classes db), db)
  else if name == "get_today_stats" then
    let r := get_today_stats ctx.today now db
    pure ("总人数:" ++ toString r.1.1 ++ ", 已交:" ++ toString r.1.2.1 ++
      ", 未交:" ++ toString r.1.2.2, r.2)
  else if name == "mark_student_submitted" then do
    let v ← dictGet args "student_id"
    match ctx.current_task with
    | some task =>
        match bindText v with
        | some sid =>
            pure ("学生 " ++ sid ++ " 已标记为已交",
              submit_student now db task.id sid)
        | none => .error "InterfaceError: unsupported parameter type"
    | none => pure ("无当前任务，请先新建作业", db)
  else if name == "set_student_grade" then do
    let v ← dictGet args "student_id"
    let g ← dictGet args "grade"
    match ctx.current_task with
    | some task =>
        match bindText v, bindText g with
        | some sid, some grade =>
            pure ("学生 " ++ sid ++ " 成绩已设置为 " ++ grade,
              set_grade now db task.id sid grade)
        | _, _ => .error "InterfaceError: unsupported parameter type"
    | none => pure ("无当前任务，请先新建作业", db)
  else if name == "add_student" then do
    let v ← dictGet args "student_id"
    let n ← dictGet args "name"
    match bindText v, bindText n with
    | some sid, some nm =>
        let class_ :=
          match (dictGetOpt args "class").bind bindText with
          | some c => if c == "" then defaultClass sid else c
          | none => defaultClass sid
        pure ("学生 " ++ nm ++ " (学号 " ++ sid ++ ") 已添加到班级 " ++ class_,
          add_student db sid nm class_)
    | _, _ => .error "InterfaceError: unsupported parameter type"
  else if name == "update_student" then do
    let v ← dictGet args "student_id"
    match bindText v with
    | some sid =>
        pure ("学生 " ++ sid ++ " 信息已更新",
          update_student db sid ((dictGetOpt args "name").bind bindText)
            ((dictGetOpt args "class").bind bindText))
    | none => .error "InterfaceError: unsupported parameter type"
  else if name == "delete_student" then do
    let v ← dictGet args "student_id"
    match bindText v with
    | some sid => pure ("学生 " ++ sid ++ " 已删除", delete_student db sid)
    | none => .error "InterfaceError: unsupported parameter type"
  else if name == "get_all_tasks" then
    pure (dumpsTasks (get_all_tasks db), db)
  else if name == "get_task_details" then do
    let v ← dictGet args "task_id"
    match bindTaskId v with
    | some tid =>
        let (details, db1) := get_task_details now db tid
        pure (dumpsDetails details, db1)
    | none => .error "InterfaceError: unsupported parameter type"
  else if name == "get_student_history" then do
    let v ← dictGet args "student_id"
    match bindText v with
    | some sid => pure (dumpsHistory (get_student_history db sid), db)
    | none => pure (dumpsHistory (get_student_history db ""), db)
  else if name == "export_current_class" then
    pure ("请手动前往导出报告页面进行导出操作。", db)
  else
    pure ("未知工具: " ++ name, db)
where
  /-- `class_ = student_id[:4] + "班" if student_id[:4].isdigit() else
  "未知"` — the fallback when no class argument is given. -/
  defaultClass (sid : String) : String :=
    let p := sid.data.take 4
    if !p.isEmpty && p.all (·.isDigit) then String.mk p ++ "班" else "未知"

/-- `AIChatWidget._execute_tool`.  `json.loads` runs before the `try`,
so an unparseable argument string escapes as an exception
(`Except.error`); every fault inside the `try` is converted to the
textual result `执行工具 <name> 时出错: <e>` with the database as it was
when the fault was raised. -/
def execute_tool (now : Nat) (ctx : MainCtx) (db : DBState) (tc : ToolCall) :
    Except PyErr (String × DBState) :=
  match json_loads tc.arguments with
  | none => .error .jsonDecodeError
  | some args =>
      match executeBody now ctx db tc.name args with
      | .ok r => .ok r
      | .error e => .ok ("执行工具 " ++ tc.name ++ " 时出错: " ++ e, db)

/-! ## The assistant session: `send_message` / `_call_deepseek_api` /
`cancel_generation`

`self.messages` is the conversation history.  The streamed response of
each request round is a script: the list of chunks the server would
deliver, plus the point (if any) at which `self.cancelled` was observed
true — the flag is checked at the top of every chunk iteration and once
more after the loop. -/

/-- One entry of `self.messages`. -/
inductive Msg where
  | user (content : String) : Msg
  | assistant (content : String) : Msg
  | assistantToolCalls (tool_calls : List ToolCall) : Msg
  | toolResult (tool_call_id : String) (content : String) : Msg
  deriving Repr, DecidableEq

/-- One streamed delta for a tool call at `index`; only the first delta
of an index carries `id`/`name`, later ones are merged by concatenating
`args` onto the accumulated argument string. -/
structure ToolCallDelta where
  index : Nat
  id : String
  name : String
  args : String
  deriving Repr, DecidableEq

/-- One streamed chunk: optional content delta, tool-call deltas,
optional finish reason. -/
structure StreamChunk where
  content : Option String
  tool_calls : List ToolCallDelta
  finish_reason : Option String
  deriving Repr, DecidableEq

/-- Merge one delta into the accumulated per-index map (a Python dict in
insertion order). -/
def mergeDelta (acc : List (Nat × ToolCall)) (d : ToolCallDelta) :
    List (Nat × ToolCall) :=
  if acc.any (fun p => p.1 == d.index) then
    acc.map (fun p =>
      if p.1 == d.index then
        (p.1, { p.2 with arguments := p.2.arguments ++ d.args })
      else p)
  else acc ++ [(d.index, ⟨d.id, d.name, d.args⟩)]

/-- The script of one request round: the chunks the stream would yield,
and `cancelAt = some j` when `self.cancelled` became true just before
iteration `j` (a `j` past the end models the flag being set between the
last chunk and the post-loop check). -/
structure RoundScript where
  chunks : List StreamChunk
  cancelAt : Option Nat
  deriving Repr, DecidableEq

/-- The chunk-consumption loop of one round: the chunks actually
processed, the accumulated text, the merged tool calls, and whether the
cancel flag was observed. -/
def processChunks (rs : RoundScript) :
    String × List ToolCall × Bool :=
  let consumed :=
    match rs.cancelAt with
    | some j => rs.chunks.take j
    | none => rs.chunks
  let full := String.join (consumed.filterMap (·.content))
  let merged := (consumed.flatMap (·.tool_calls)).foldl mergeDelta []
  (full, merged.map (·.2), rs.cancelAt.isSome)

/-- How a `_call_deepseek_api` run ended. -/
inductive Outcome where
  | completed : Outcome
  | cancelled : Outcome
  | crashed : Outcome
  | exhausted : Outcome
  deriving Repr, DecidableEq

/-- Execute the accumulated tool calls in order, appending one
`tool`-role message per call; an escaping exception (`_execute_tool` on
unparseable JSON) kills the worker thread with the tool-result messages
of the faulting batch discarded (they are only extended onto
`self.messages` after all calls return). -/
def execAll (now : Nat) (ctx : MainCtx) :
    DBState → List ToolCall → List Msg → Except DBState (List Msg × DBState)
  | db, [], acc => .ok (acc, db)
  | db, tc :: rest, acc =>
      match execute_tool now ctx db tc with
      | .ok (res, db1) => execAll now ctx db1 rest (acc ++ [.toolResult tc.id res])
      | .error _ => .error db

/-- The round loop of `_call_deepseek_api`: consume the round's stream;
on an observed cancel flag return with the history untouched; on
accumulated tool calls append the assistant tool-call turn, run the
tools, append their results and continue with the next round; otherwise
append the final assistant turn. -/
def runRounds (now : Nat) (ctx : MainCtx) :
    DBState → List Msg → List RoundScript → DBState × List Msg × Outcome
  | db, msgs, [] => (db, msgs, .exhausted)
  | db, msgs, rs :: rest =>
      let (full, tcs, cancelled) := processChunks rs
      if cancelled then (db, msgs, .cancelled)
      else if tcs.isEmpty then (db, msgs ++ [.assistant full], .completed)
      else
        let msgs1 := msgs ++ [.assistantToolCalls tcs]
        match execAll now ctx db tcs [] with
        | .error db1 => (db1, msgs1, .crashed)
        | .ok (toolMsgs, db1) => runRounds now ctx db1 (msgs1 ++ toolMsgs) rest

/-- `send_message(user_input)` followed by the worker thread
`_call_deepseek_api` driven by `scripts`: the user turn is appended to
`self.messages` under the lock *before* the thread starts, then the
round loop runs. -/
def send_message_run (now : Nat) (ctx : MainCtx) (db : DBState)
    (msgs : List Msg) (user_input : String) (scripts : List RoundScript) :
    DBState × List Msg × Outcome :=
  runRounds now ctx db (msgs ++ [.user user_input]) scripts

/-! ## Concrete example states (shared by several evaluations below) -/

/-- One student, one task, no submission records yet. -/
def exS1 : DBState :=
  ⟨[⟨"202301", "Zhang", "2023"⟩], [⟨1, "hw", "2026-10-12"⟩], [], 2, 1⟩

/-- One student, one task, one graded submission record. -/
def exS2 : DBState :=
  ⟨[⟨"202301", "Zhang", "2023"⟩], [⟨1, "hw", "2026-10-12"⟩],
    [⟨1, 1, "202301", "submitted", some "A", 3⟩], 2, 2⟩

/-- Empty roster, one task. -/
def exS0 : DBState :=
  ⟨[], [⟨1, "hw", "2026-10-12"⟩], [], 2, 1⟩

/-- A widget context whose current task is task 1. -/
def exCtx : MainCtx := ⟨some ⟨1, "hw", "2026-10-12"⟩, "2026-10-12"⟩

/-! ## Helper lemmas about the backfill -/

theorem backfillRows_mem (now tid : Nat) :
    ∀ (n : Nat) (ids : List String) (r : TaskDetail),
      r ∈ backfillRows now tid n ids →
      r.task_id = tid ∧ r.status = "missing" ∧ r.grade = none ∧
        r.student_id ∈ ids
  | _, [], r, h => by simp [backfillRows] at h
  | n, sid :: rest, r, h => by
      simp only [backfillRows, List.mem_cons] at h
      rcases h with h | h
      · subst h; simp
      · have ih := backfillRows_mem now tid (n + 1) rest r h
        exact ⟨ih.1, ih.2.1, ih.2.2.1, List.mem_cons_of_mem _ ih.2.2.2⟩

theorem backfillRows_map_sid (now tid : Nat) :
    ∀ (n : Nat) (ids : List String),
      (backfillRows now tid n ids).map (·.student_id) = ids
  | _, [] => rfl
  | n, sid :: rest => by
      simp [backfillRows, backfillRows_map_sid now tid (n + 1) rest]

theorem backfillRows_filter_task (now tid n : Nat) (ids : List String) :
    (backfillRows now tid n ids).filter (fun td => td.task_id == tid) =
      backfillRows now tid n ids := by
  rw [List.filter_eq_self]
  intro r hr
  simp [(backfillRows_mem now tid n ids r hr).1]

/-- Frame of `ensure_task_students`: students and tasks are untouched and
`task_details` only grows by fresh `status='missing'` rows for enrolled
students that had no row under this task. -/
theorem ensure_frame (now : Nat) (s : DBState) (tid : Nat) :
    (ensure_task_students now s tid).students = s.students ∧
    (ensure_task_students now s tid).tasks = s.tasks ∧
    (ensure_task_students now s tid).next_task_id = s.next_task_id ∧
    ∃ new, (ensure_task_students now s tid).task_details = s.task_details ++ new ∧
      ∀ r ∈ new, r.task_id = tid ∧ r.status = "missing" ∧ r.grade = none ∧
        r.student_id ∈ s.students.map (·.student_id) ∧
        ∀ old ∈ s.task_details, old.task_id = tid →
          old.student_id ≠ r.student_id := by
  unfold ensure_task_students
  split
  · refine ⟨rfl, rfl, rfl, _, rfl, ?_⟩
    intro r hr
    have hm := backfillRows_mem now tid _ _ r hr
    have hsid := hm.2.2.2
    unfold missingIds at hsid
    rw [List.mem_filter] at hsid
    refine ⟨hm.1, hm.2.1, hm.2.2.1, hsid.1, ?_⟩
    intro old hold htask heq
    have hnc := hsid.2
    have holdIn : old ∈ taskRowsFor s tid :=
      List.mem_filter.mpr ⟨hold, by simp [htask]⟩
    simp [List.contains] at hnc
    exact hnc old holdIn heq
  · exact ⟨rfl, rfl, rfl, [], by simp, by simp⟩

/-- When no enrolled student lacks a row under `tid`, the backfill is the
identity. -/
theorem ensure_eq_self_of_no_missing (now : Nat) (s : DBState) (tid : Nat)
    (h : missingIds s tid = []) :
    ensure_task_students now s tid = s := by
  unfold ensure_task_students
  split
  · cases s
    simp [h, backfillRows]
  · rfl

/-- After one backfill either every enrolled student has a row under
`tid`, or the call was a no-op because its guard was already false. -/
theorem missingIds_ensure (now : Nat) (s : DBState) (tid : Nat) :
    missingIds (ensure_task_students now s tid) tid = [] ∨
      ¬ ((taskRowsFor s tid).length < s.students.length) := by
  by_cases h : (taskRowsFor s tid).length < s.students.length
  · left
    have hE : ensure_task_students now s tid =
        { s with
          task_details :=
            s.task_details ++ backfillRows now tid s.next_td_id (missingIds s tid),
          next_td_id := s.next_td_id + (missingIds s tid).length } := by
      unfold ensure_task_students
      rw [if_pos h]
    rw [hE]
    unfold missingIds taskRowsFor
    simp only [List.filter_append, List.map_append,
      backfillRows_filter_task, backfillRows_map_sid]
    rw [List.filter_eq_nil_iff]
    intro sid hsid
    have hunion : sid ∈
        (s.task_details.filter (fun td => td.task_id == tid)).map (·.student_id) ++
          (s.students.map (·.student_id)).filter (fun sid =>
            !(((s.task_details.filter (fun td => td.task_id == tid)).map
                (·.student_id)).contains sid)) := by
      by_cases hc : sid ∈
          (s.task_details.filter (fun td => td.task_id == tid)).map (·.student_id)
      · exact List.mem_append_left _ hc
      · refine List.mem_append_right _ ?_
        rw [List.mem_filter]
        refine ⟨hsid, ?_⟩
        simp [List.contains, List.elem_iff, hc]
    simp only [Bool.not_eq_true, Bool.not_eq_false']
    simpa [List.contains, List.elem_iff] using hunion
  · exact Or.inr h

/-- C8 core: the second backfill in a row changes nothing. -/
theorem ensure_ensure (now1 now2 : Nat) (s : DBState) (tid : Nat) :
    ensure_task_students now2 (ensure_task_students now1 s tid) tid =
      ensure_task_students now1 s tid := by
  rcases missingIds_ensure now1 s tid with h | h
  · exact ensure_eq_self_of_no_missing now2 _ tid h
  · have hE : ensure_task_students now1 s tid = s := by
      unfold ensure_task_students
      rw [if_neg h]
    rw [hE]
    unfold ensure_task_students
    rw [if_neg h]

/-- The max-by-date scan never loses its accumulator. -/
theorem foldl_latestStep_isSome :
    ∀ (l : List TaskRow) (m : TaskRow), (l.foldl latestStep (some m)).isSome
  | [], _ => rfl
  | t :: rest, m => by
      rw [List.foldl_cons]
      by_cases hd : m.date < t.date
      · rw [show latestStep (some m) t = some t from by simp [latestStep, hd]]
        exact foldl_latestStep_isSome rest t
      · rw [show latestStep (some m) t = some m from by simp [latestStep, hd]]
        exact foldl_latestStep_isSome rest m

/-- `ORDER BY date DESC LIMIT 1` yields a row whenever the table is
non-empty. -/
theorem latestTask_isSome (s : DBState) (h : s.tasks ≠ []) :
    (latestTask s).isSome := by
  unfold latestTask
  match hl : s.tasks with
  | [] => exact absurd hl h
  | t :: rest =>
      rw [List.foldl_cons]
      exact foldl_latestStep_isSome rest t

/-- `get_current_task` leaves the state unchanged unless the tasks table
is empty, in which case it inserts exactly today's task. -/
theorem get_current_task_frame (today : String) (s : DBState) :
    (get_current_task today s).2 = s ∨
      (s.tasks = [] ∧ (get_current_task today s).2 =
        { s with tasks := [⟨s.next_task_id, "作业-" ++ today, today⟩],
                 next_task_id := s.next_task_id + 1 }) := by
  unfold get_current_task
  cases hl : latestTask s with
  | some t => exact Or.inl rfl
  | none =>
      right
      have hnil : s.tasks = [] := by
        by_contra hne
        have hs := latestTask_isSome s hne
        rw [hl] at hs
        exact Bool.noConfusion hs
      refine ⟨hnil, ?_⟩
      unfold get_or_create_today_task
      rw [hnil]
      rfl

/-- The three-table frame of the backfill, in the weakened form the query
operations expose. -/
theorem ensure_frame_weak (now : Nat) (s : DBState) (tid : Nat) :
    (ensure_task_students now s tid).students = s.students ∧
    (ensure_task_students now s tid).tasks = s.tasks ∧
    ∃ new, (ensure_task_students now s tid).task_details = s.task_details ++ new ∧
      ∀ r ∈ new, r.status = "missing" ∧ r.grade = none := by
  obtain ⟨h1, h2, _, new, h4, h5⟩ := ensure_frame now s tid
  exact ⟨h1, h2, new, h4, fun r hr => ⟨(h5 r hr).2.1, (h5 r hr).2.2.1⟩⟩

/-! ## Claim C10 -/

/-- C10: `ensure_task_students(taskId)` only inserts new `task_details`
rows with `status='missing'` and no grade, for enrolled students lacking
a row under `taskId`; every row that existed before the call is
preserved verbatim (the old table is a prefix of the new one), and in
particular rows of other tasks are untouched. -/
theorem ensure_task_students_only_backfills (now : Nat) (s : DBState) (tid : Nat) :
    (ensure_task_students now s tid).students = s.students ∧
    (ensure_task_students now s tid).tasks = s.tasks ∧
    ∃ new, (ensure_task_students now s tid).task_details = s.task_details ++ new ∧
      ∀ r ∈ new, r.task_id = tid ∧ r.status = "missing" ∧ r.grade = none ∧
        r.student_id ∈ s.students.map (·.student_id) ∧
        ∀ old ∈ s.task_details, old.task_id = tid →
          old.student_id ≠ r.student_id := by
  obtain ⟨h1, h2, _, new, h4, h5⟩ := ensure_frame now s tid
  exact ⟨h1, h2, new, h4, h5⟩

/-! ## Claim C8 -/

/-- C8: `ensure_task_students` is idempotent — for every database state
and every task id, running the backfill twice in succession yields
exactly the state (in particular the `task_details` record set) that one
run yields, whatever the two timestamps are. -/
theorem ensure_task_students_idempotent (now1 now2 : Nat) (s : DBState) (tid : Nat) :
    ensure_task_students now2 (ensure_task_students now1 s tid) tid =
      ensure_task_students now1 s tid :=
  ensure_ensure now1 now2 s tid

/-! ## Claim C1 -/

/-- C1 counterexample: `get_task_details` is not read-only.  On a state
with one enrolled student and no `task_details` rows, querying the task
detail changes the `task_details` table (the lazy backfill inserts a
row), so the claim that every query leaves the three tables unchanged is
false. -/
theorem get_task_details_mutates :
    (get_task_details 5 exS1 1).2.task_details ≠ exS1.task_details := by
  decide

/-- C1 amended: every Task Ledger query leaves the `students` table
unchanged; `get_student_history` executes no write at all (it is embedded
as a pure function); `get_task_details`, `get_submitted_students` and
`get_missing_students` leave `tasks` unchanged and modify `task_details`
only by appending backfill rows with `status='missing'` and NULL grade;
`get_today_stats` does the same except that, when the `tasks` table is
empty, it additionally inserts today's task. -/
theorem query_ops_frame (now : Nat) (today : String) (s : DBState)
    (tid : Nat) :
    ((get_task_details now s tid).2.students = s.students ∧
     (get_task_details now s tid).2.tasks = s.tasks ∧
     ∃ new, (get_task_details now s tid).2.task_details = s.task_details ++ new ∧
       ∀ r ∈ new, r.status = "missing" ∧ r.grade = none) ∧
    ((get_submitted_students now s tid).2.students = s.students ∧
     (get_submitted_students now s tid).2.tasks = s.tasks ∧
     ∃ new, (get_submitted_students now s tid).2.task_details =
         s.task_details ++ new ∧
       ∀ r ∈ new, r.status = "missing" ∧ r.grade = none) ∧
    (∀ c : Option String,
     (get_missing_students now s tid c).2.students = s.students ∧
     (get_missing_students now s tid c).2.tasks = s.tasks ∧
     ∃ new, (get_missing_students now s tid c).2.task_details =
         s.task_details ++ new ∧
       ∀ r ∈ new, r.status = "missing" ∧ r.grade = none) ∧
    ((get_today_stats today now s).2.students = s.students ∧
     ((get_today_stats today now s).2.tasks = s.tasks ∨
       (s.tasks = [] ∧ (get_today_stats today now s).2.tasks =
         [⟨s.next_task_id, "作业-" ++ today, today⟩])) ∧
     ∃ new, (get_today_stats today now s).2.task_details =
         s.task_details ++ new ∧
       ∀ r ∈ new, r.status = "missing" ∧ r.grade = none) := by
  refine ⟨ensure_frame_weak now s tid, ensure_frame_weak now s tid,
    fun c => ensure_frame_weak now s tid, ?_⟩
  have hstats : (get_today_stats today now s).2 =
      ensure_task_students now (get_current_task today s).2
        (get_current_task today s).1.id := rfl
  rw [hstats]
  rcases get_current_task_frame today s with h | ⟨hnil, h⟩
  · rw [h]
    obtain ⟨h1, h2, new, h4, h5⟩ :=
      ensure_frame_weak now s (get_current_task today s).1.id
    exact ⟨h1, Or.inl h2, new, h4, h5⟩
  · rw [h]
    obtain ⟨h1, h2, new, h4, h5⟩ :=
      ensure_frame_weak now
        { s with tasks := [⟨s.next_task_id, "作业-" ++ today, today⟩],
                 next_task_id := s.next_task_id + 1 }
        (get_current_task today s).1.id
    exact ⟨h1, Or.inr ⟨hnil, h2⟩, new, h4, h5⟩

/-! ## Upsert and join lemmas -/

/-- `find?` through an in-place upsert update that preserves the key. -/
theorem find?_map_upsert (p : TaskDetail → Bool) (u : TaskDetail → TaskDetail)
    (hu : ∀ td, p (u td) = p td) (l : List TaskDetail) :
    (l.map (fun td => if p td then u td else td)).find? p =
      (l.find? p).map (fun td => if p td then u td else td) := by
  induction l with
  | nil => rfl
  | cons a l ih =>
      by_cases hp : p a
      · have h1 : p (u a) = true := by rw [hu]; exact hp
        simp [List.find?_cons, hp, h1]
      · simp [List.find?_cons, hp, ih]

/-- `find?_map_upsert` specialised to the `submit_student` update. -/
theorem find?_map_submit_upd (tid : Nat) (sid : String) (now : Nat)
    (l : List TaskDetail) :
    (l.map (fun td => if keyMatch tid sid td then
        { td with status := "submitted", updated_at := now }
      else td)).find? (keyMatch tid sid) =
      (l.find? (keyMatch tid sid)).map (fun td => if keyMatch tid sid td then
        { td with status := "submitted", updated_at := now }
      else td) :=
  find?_map_upsert (keyMatch tid sid)
    (fun td => { td with status := "submitted", updated_at := now })
    (fun _ => rfl) l

/-- `find?_map_upsert` specialised to the `set_grade` update. -/
theorem find?_map_grade_upd (tid : Nat) (sid g : String) (now : Nat)
    (l : List TaskDetail) :
    (l.map (fun td => if keyMatch tid sid td then
        { td with status := "submitted", grade := some g, updated_at := now }
      else td)).find? (keyMatch tid sid) =
      (l.find? (keyMatch tid sid)).map (fun td => if keyMatch tid sid td then
        { td with status := "submitted", grade := some g, updated_at := now }
      else td) :=
  find?_map_upsert (keyMatch tid sid)
    (fun td => { td with status := "submitted", grade := some g, updated_at := now })
    (fun _ => rfl) l

theorem submit_student_students (now : Nat) (s : DBState) (tid : Nat)
    (sid : String) : (submit_student now s tid sid).students = s.students := by
  unfold submit_student
  split <;> rfl

theorem submit_student_tasks (now : Nat) (s : DBState) (tid : Nat)
    (sid : String) : (submit_student now s tid sid).tasks = s.tasks := by
  unfold submit_student
  split <;> rfl

theorem set_grade_students (now : Nat) (s : DBState) (tid : Nat)
    (sid g : String) : (set_grade now s tid sid g).students = s.students := by
  unfold set_grade
  split <;> rfl

/-- What `submit_student` leaves under the `(tid, sid)` key: a row with
`status='submitted'` whose grade is exactly the grade the key had before
(NULL when no row existed). -/
theorem joinDetail_submit (now : Nat) (s : DBState) (tid : Nat) (sid : String) :
    ∃ r, joinDetail (submit_student now s tid sid) tid sid = some r ∧
      r.status = "submitted" ∧
      r.grade = (joinDetail s tid sid).bind (·.grade) := by
  by_cases hany : s.task_details.any (keyMatch tid sid)
  · have hE : (submit_student now s tid sid).task_details =
        s.task_details.map (fun td => if keyMatch tid sid td then
          { td with status := "submitted", updated_at := now }
        else td) := by
      unfold submit_student
      rw [if_pos hany]
    have hsome : (s.task_details.find? (keyMatch tid sid)).isSome := by
      rw [List.find?_isSome]
      exact List.any_eq_true.mp hany
    obtain ⟨old, hold⟩ := Option.isSome_iff_exists.mp hsome
    have hpold : keyMatch tid sid old = true := List.find?_some hold
    unfold joinDetail
    rw [hE, find?_map_submit_upd, hold]
    exact ⟨{ old with status := "submitted", updated_at := now },
      by simp [hpold], rfl, by simp⟩
  · have hE : (submit_student now s tid sid).task_details =
        s.task_details ++
          [⟨s.next_td_id, tid, sid, "submitted", none, now⟩] := by
      unfold submit_student
      rw [if_neg hany]
    have hnone : s.task_details.find? (keyMatch tid sid) = none := by
      rw [List.find?_eq_none]
      intro x hx hpx
      exact hany (List.any_eq_true.mpr ⟨x, hx, hpx⟩)
    unfold joinDetail
    rw [hE, List.find?_append, hnone]
    exact ⟨⟨s.next_td_id, tid, sid, "submitted", none, now⟩,
      by simp [keyMatch], rfl, by simp⟩

/-- What `set_grade` leaves under the `(tid, sid)` key: a row with
`status='submitted'` and `grade = g`, whatever was there before. -/
theorem joinDetail_set_grade (now : Nat) (s : DBState) (tid : Nat)
    (sid g : String) :
    ∃ r, joinDetail (set_grade now s tid sid g) tid sid = some r ∧
      r.status = "submitted" ∧ r.grade = some g := by
  by_cases hany : s.task_details.any (keyMatch tid sid)
  · have hE : (set_grade now s tid sid g).task_details =
        s.task_details.map (fun td => if keyMatch tid sid td then
          { td with status := "submitted", grade := some g, updated_at := now }
        else td) := by
      unfold set_grade
      rw [if_pos hany]
    have hsome : (s.task_details.find? (keyMatch tid sid)).isSome := by
      rw [List.find?_isSome]
      exact List.any_eq_true.mp hany
    obtain ⟨old, hold⟩ := Option.isSome_iff_exists.mp hsome
    have hpold : keyMatch tid sid old = true := List.find?_some hold
    unfold joinDetail
    rw [hE, find?_map_grade_upd, hold]
    exact ⟨{ old with status := "submitted", grade := some g, updated_at := now },
      by simp [hpold], rfl, rfl⟩
  · have hE : (set_grade now s tid sid g).task_details =
        s.task_details ++
          [⟨s.next_td_id, tid, sid, "submitted", some g, now⟩] := by
      unfold set_grade
      rw [if_neg hany]
    have hnone : s.task_details.find? (keyMatch tid sid) = none := by
      rw [List.find?_eq_none]
      intro x hx hpx
      exact hany (List.any_eq_true.mpr ⟨x, hx, hpx⟩)
    unfold joinDetail
    rw [hE, List.find?_append, hnone]
    exact ⟨⟨s.next_td_id, tid, sid, "submitted", some g, now⟩,
      by simp [keyMatch], rfl, rfl⟩

/-- The backfill never disturbs a key that already has a row. -/
theorem joinDetail_ensure_of_isSome (now : Nat) (s : DBState) (tid : Nat)
    (sid : String) (h : (joinDetail s tid sid).isSome) :
    joinDetail (ensure_task_students now s tid) tid sid =
      joinDetail s tid sid := by
  obtain ⟨_, _, _, new, h4, _⟩ := ensure_frame now s tid
  unfold joinDetail at *
  rw [h4, List.find?_append]
  obtain ⟨r, hr⟩ := Option.isSome_iff_exists.mp h
  rw [hr]
  rfl

/-- Any row of a `get_task_details` result belongs to an enrolled student
and carries exactly the joined status/grade of that student's key. -/
theorem mem_get_task_details (now : Nat) (s : DBState) (tid : Nat)
    (r : DetailRow) (hr : r ∈ (get_task_details now s tid).1) :
    ∃ st ∈ s.students, r.student_id = st.student_id ∧
      r.status = ((joinDetail (ensure_task_students now s tid) tid
        st.student_id).map (·.status)).getD "missing" ∧
      r.grade = (joinDetail (ensure_task_students now s tid) tid
        st.student_id).bind (·.grade) := by
  have h1 : (get_task_details now s tid).1 =
      ((ensure_task_students now s tid).students.insertionSort classIdLe).map
        (fun st => ⟨st.student_id, st.name, st.class_,
          ((joinDetail (ensure_task_students now s tid) tid st.student_id).map
            (·.status)).getD "missing",
          (joinDetail (ensure_task_students now s tid) tid st.student_id).bind
            (·.grade)⟩) := rfl
  rw [h1, List.mem_map] at hr
  obtain ⟨st, hst, rfl⟩ := hr
  rw [List.mem_insertionSort, (ensure_frame now s tid).1] at hst
  exact ⟨st, hst, rfl, rfl, rfl⟩

/-- Conversely, every enrolled student produces a row of the
`get_task_details` result carrying the joined status/grade of their
key. -/
theorem get_task_details_has_student (now : Nat) (s : DBState) (tid : Nat)
    (st : Student) (hst : st ∈ s.students) :
    ∃ r ∈ (get_task_details now s tid).1, r.student_id = st.student_id ∧
      r.status = ((joinDetail (ensure_task_students now s tid) tid
        st.student_id).map (·.status)).getD "missing" ∧
      r.grade = (joinDetail (ensure_task_students now s tid) tid
        st.student_id).bind (·.grade) := by
  have h1 : (get_task_details now s tid).1 =
      ((ensure_task_students now s tid).students.insertionSort classIdLe).map
        (fun st => ⟨st.student_id, st.name, st.class_,
          ((joinDetail (ensure_task_students now s tid) tid st.student_id).map
            (·.status)).getD "missing",
          (joinDetail (ensure_task_students now s tid) tid st.student_id).bind
            (·.grade)⟩) := rfl
  have hst1 : st ∈ (ensure_task_students now s tid).students.insertionSort
      classIdLe := by
    rw [List.mem_insertionSort, (ensure_frame now s tid).1]
    exact hst
  rw [h1]
  exact ⟨_, List.mem_map_of_mem _ hst1, rfl, rfl, rfl⟩

/-! ## Claim C4 -/

/-- C4 counterexample: on a state with one task and one graded record for
student `202301`, deleting the student and then asking for their history
does NOT return the empty list — `get_student_history` LEFT-JOINs from
the `tasks` table, so it returns one row per task (with NULL status and
grade). -/
theorem history_after_delete_not_empty :
    get_student_history (delete_student exS2 "202301") "202301" ≠ [] := by
  decide

/-- C4 amended: deleting student S does remove every SubmissionRecord of
S (no `task_details` row for S survives), and a subsequent
`get_student_history(S)` carries no submission data: it returns one row
per task — not the empty list — each with NULL status and NULL grade. -/
theorem delete_student_removes_records (s : DBState) (sid : String) :
    (∀ td ∈ (delete_student s sid).task_details, td.student_id ≠ sid) ∧
    (get_student_history (delete_student s sid) sid).length = s.tasks.length ∧
    ∀ h ∈ get_student_history (delete_student s sid) sid,
      h.status = none ∧ h.grade = none := by
  have hclean : ∀ td ∈ (delete_student s sid).task_details,
      td.student_id ≠ sid := by
    intro td h
    unfold delete_student at h
    rw [List.mem_filter] at h
    simpa using h.2
  have hfind : ∀ t : TaskRow,
      (delete_student s sid).task_details.find? (keyMatch t.id sid) = none := by
    intro t
    rw [List.find?_eq_none]
    intro x hx
    have hne := hclean x hx
    simp [keyMatch, hne]
  refine ⟨hclean, ?_, ?_⟩
  · unfold get_student_history
    rw [List.length_map, List.length_insertionSort]
    rfl
  · intro h hh
    unfold get_student_history at hh
    rw [List.mem_map] at hh
    obtain ⟨t, ht, rfl⟩ := hh
    simp [hfind t]

/-! ## Claim C5 -/

/-- C5: for an enrolled student S, `submit_student(T,S)` upserts the
`(T,S)` record to `status='submitted'` leaving the grade exactly as it
was (NULL when no record existed), and the subsequent `get_task_details(T)`
shows S with `status='submitted'` and that untouched grade. -/
theorem submit_then_task_details (now now2 : Nat) (s : DBState) (tid : Nat)
    (sid : String) (hWF : WF s) (hS : sid ∈ s.students.map (·.student_id)) :
    (∃ r ∈ (get_task_details now2 (submit_student now s tid sid) tid).1,
      r.student_id = sid) ∧
    (∀ r ∈ (get_task_details now2 (submit_student now s tid sid) tid).1,
      r.student_id = sid →
        r.status = "submitted" ∧
        r.grade = (joinDetail s tid sid).bind (·.grade)) := by
  obtain ⟨r0, hr0, hr0s, hr0g⟩ := joinDetail_submit now s tid sid
  have hjoin : joinDetail
      (ensure_task_students now2 (submit_student now s tid sid) tid) tid sid =
        some r0 := by
    rw [joinDetail_ensure_of_isSome now2 _ tid sid (by rw [hr0]; rfl), hr0]
  constructor
  · rw [List.mem_map] at hS
    obtain ⟨st, hst, hstid⟩ := hS
    have hst1 : st ∈ (submit_student now s tid sid).students := by
      rw [submit_student_students]
      exact hst
    obtain ⟨r, hr, hrid, _, _⟩ :=
      get_task_details_has_student now2 (submit_student now s tid sid) tid st hst1
    exact ⟨r, hr, by rw [hrid, hstid]⟩
  · intro r hr hrid
    obtain ⟨st, hst, hrid2, hrstat, hrgrade⟩ :=
      mem_get_task_details now2 (submit_student now s tid sid) tid r hr
    rw [submit_student_students] at hst
    have hsid : st.student_id = sid := by rw [← hrid2, hrid]
    rw [hsid, hjoin] at hrstat hrgrade
    refine ⟨?_, ?_⟩
    · rw [hrstat]
      simpa using hr0s
    · rw [hrgrade]
      simpa using hr0g

/-- C5 witness: on the concrete state with an existing graded record,
submitting keeps the grade and the detail row shows `submitted`. -/
theorem submit_then_task_details_witness :
    WF exS2 ∧ "202301" ∈ exS2.students.map (·.student_id) ∧
    ((∃ r ∈ (get_task_details 7 (submit_student 6 exS2 1 "202301") 1).1,
      r.student_id = "202301") ∧
    (∀ r ∈ (get_task_details 7 (submit_student 6 exS2 1 "202301") 1).1,
      r.student_id = "202301" →
        r.status = "submitted" ∧
        r.grade = (joinDetail exS2 1 "202301").bind (·.grade))) :=
  ⟨by decide, by decide,
    submit_then_task_details 6 7 exS2 1 "202301" (by decide) (by decide)⟩

/-! ## Claim C6 -/

/-- C6: `set_grade(T,S,g)` upserts the `(T,S)` record to
`status='submitted'` with `grade=g` (overwriting any prior grade), so the
subsequent `get_task_details(T)` shows enrolled student S with
`status='submitted'` and `grade=g`, whatever the record's prior status or
existence. -/
theorem set_grade_then_task_details (now now2 : Nat) (s : DBState) (tid : Nat)
    (sid g : String) (hWF : WF s)
    (hS : sid ∈ s.students.map (·.student_id)) :
    (∃ r ∈ (get_task_details now2 (set_grade now s tid sid g) tid).1,
      r.student_id = sid) ∧
    (∀ r ∈ (get_task_details now2 (set_grade now s tid sid g) tid).1,
      r.student_id = sid →
        r.status = "submitted" ∧ r.grade = some g) := by
  obtain ⟨r0, hr0, hr0s, hr0g⟩ := joinDetail_set_grade now s tid sid g
  have hjoin : joinDetail
      (ensure_task_students now2 (set_grade now s tid sid g) tid) tid sid =
        some r0 := by
    rw [joinDetail_ensure_of_isSome now2 _ tid sid (by rw [hr0]; rfl), hr0]
  constructor
  · rw [List.mem_map] at hS
    obtain ⟨st, hst, hstid⟩ := hS
    have hst1 : st ∈ (set_grade now s tid sid g).students := by
      rw [set_grade_students]
      exact hst
    obtain ⟨r, hr, hrid, _, _⟩ :=
      get_task_details_has_student now2 (set_grade now s tid sid g) tid st hst1
    exact ⟨r, hr, by rw [hrid, hstid]⟩
  · intro r hr hrid
    obtain ⟨st, hst, hrid2, hrstat, hrgrade⟩ :=
      mem_get_task_details now2 (set_grade now s tid sid g) tid r hr
    have hsid : st.student_id = sid := by rw [← hrid2, hrid]
    rw [hsid, hjoin] at hrstat hrgrade
    refine ⟨?_, ?_⟩
    · rw [hrstat]
      simpa using hr0s
    · rw [hrgrade]
      simpa using hr0g

/-- C6 witness: overwriting the prior grade `A` with `B` on the concrete
state. -/
theorem set_grade_then_task_details_witness :
    WF exS2 ∧ "202301" ∈ exS2.students.map (·.student_id) ∧
    ((∃ r ∈ (get_task_details 9 (set_grade 8 exS2 1 "202301" "B") 1).1,
      r.student_id = "202301") ∧
    (∀ r ∈ (get_task_details 9 (set_grade 8 exS2 1 "202301" "B") 1).1,
      r.student_id = "202301" →
        r.status = "submitted" ∧ r.grade = some "B")) :=
  ⟨by decide, by decide,
    set_grade_then_task_details 8 9 exS2 1 "202301" "B" (by decide) (by decide)⟩

/-! ## Digit-string arithmetic (for claim C9) -/

/-- The numeric value of a student-identifier string. -/
def digitVal (t : String) : Nat := digitsVal t.data

theorem isDigit_bounds (c : Char) (h : c.isDigit = true) :
    48 ≤ c.toNat ∧ c.toNat ≤ 57 := by
  simp [Char.isDigit, Char.le_def] at h
  unfold Char.toNat
  exact ⟨h.1, h.2⟩

theorem foldl_digits_acc :
    ∀ (l : List Char) (a : Nat),
      l.foldl (fun acc c => acc * 10 + (c.toNat - 48)) a =
        a * 10 ^ l.length + digitsVal l
  | [], a => by simp [digitsVal]
  | c :: l, a => by
      rw [List.foldl_cons, foldl_digits_acc l (a * 10 + (c.toNat - 48))]
      have h2 : digitsVal (c :: l) =
          (c.toNat - 48) * 10 ^ l.length + digitsVal l := by
        show List.foldl _ (0 * 10 + (c.toNat - 48)) l = _
        rw [foldl_digits_acc l (0 * 10 + (c.toNat - 48))]
        ring_nf
      rw [List.length_cons, h2, pow_succ]
      ring

theorem digitsVal_cons (c : Char) (l : List Char) :
    digitsVal (c :: l) = (c.toNat - 48) * 10 ^ l.length + digitsVal l := by
  show List.foldl _ (0 * 10 + (c.toNat - 48)) l = _
  rw [foldl_digits_acc l (0 * 10 + (c.toNat - 48))]
  ring_nf

theorem digitsVal_lt_pow :
    ∀ l : List Char, (∀ c ∈ l, c.isDigit) → digitsVal l < 10 ^ l.length
  | [], _ => by simp [digitsVal]
  | c :: l, h => by
      rw [digitsVal_cons, List.length_cons, pow_succ]
      have hd := isDigit_bounds c (h c (List.mem_cons_self c l))
      have ht := digitsVal_lt_pow l (fun x hx => h x (List.mem_cons_of_mem _ hx))
      have h9 : c.toNat - 48 ≤ 9 := by omega
      calc (c.toNat - 48) * 10 ^ l.length + digitsVal l
          < (c.toNat - 48) * 10 ^ l.length + 10 ^ l.length := by omega
        _ = (c.toNat - 48 + 1) * 10 ^ l.length := by ring
        _ ≤ 10 * 10 ^ l.length := Nat.mul_le_mul_right _ (by omega)
        _ = 10 ^ l.length * 10 := by ring

/-- Equal-length digit strings compare lexicographically exactly as their
numeric values do. -/
theorem digits_lex_iff :
    ∀ (l1 l2 : List Char), l1.length = l2.length →
      (∀ c ∈ l1, c.isDigit) → (∀ c ∈ l2, c.isDigit) →
      (List.Lex (· < ·) l1 l2 ↔ digitsVal l1 < digitsVal l2)
  | [], [], _, _, _ => by
      constructor
      · intro h
        cases h
      · intro h
        simp [digitsVal] at h
  | [], _ :: _, hlen, _, _ => by simp at hlen
  | _ :: _, [], hlen, _, _ => by simp at hlen
  | c1 :: t1, c2 :: t2, hlen, h1, h2 => by
      have hlen' : t1.length = t2.length := by simpa using hlen
      have hd1 : ∀ c ∈ t1, c.isDigit :=
        fun c hc => h1 c (List.mem_cons_of_mem _ hc)
      have hd2 : ∀ c ∈ t2, c.isDigit :=
        fun c hc => h2 c (List.mem_cons_of_mem _ hc)
      have ih := digits_lex_iff t1 t2 hlen' hd1 hd2
      have hb1 := digitsVal_lt_pow t1 hd1
      have hb2 := digitsVal_lt_pow t2 hd2
      have hc1 := isDigit_bounds c1 (h1 c1 (List.mem_cons_self c1 t1))
      have hc2 := isDigit_bounds c2 (h2 c2 (List.mem_cons_self c2 t2))
      rw [digitsVal_cons, digitsVal_cons, hlen']
      rcases lt_trichotomy c1 c2 with hc | hc | hc
      · constructor
        · intro _
          have hvlt : c1.toNat < c2.toNat := hc
          have hdlt : c1.toNat - 48 + 1 ≤ c2.toNat - 48 := by omega
          rw [hlen'] at hb1
          calc (c1.toNat - 48) * 10 ^ t2.length + digitsVal t1
              < (c1.toNat - 48) * 10 ^ t2.length + 10 ^ t2.length := by omega
            _ = (c1.toNat - 48 + 1) * 10 ^ t2.length := by ring
            _ ≤ (c2.toNat - 48) * 10 ^ t2.length :=
                Nat.mul_le_mul_right _ hdlt
            _ ≤ (c2.toNat - 48) * 10 ^ t2.length + digitsVal t2 :=
                Nat.le_add_right _ _
        · intro _
          exact List.Lex.rel hc
      · subst hc
        constructor
        · intro hl
          cases hl with
          | rel h => exact absurd h (lt_irrefl _)
          | cons h => have := ih.mp h; omega
        · intro hv
          have hv' : digitsVal t1 < digitsVal t2 := by omega
          exact List.Lex.cons (ih.mpr hv')
      · constructor
        · intro hl
          cases hl with
          | rel h => exact absurd h (asymm hc)
          | cons h => exact absurd hc (lt_irrefl _)
        · intro hv
          exfalso
          have hvlt : c2.toNat < c1.toNat := hc
          have hdlt : c2.toNat - 48 + 1 ≤ c1.toNat - 48 := by omega
          rw [hlen'] at hb1
          have hswap : (c2.toNat - 48) * 10 ^ t2.length + digitsVal t2 <
              (c1.toNat - 48) * 10 ^ t2.length + digitsVal t1 := by
            calc (c2.toNat - 48) * 10 ^ t2.length + digitsVal t2
                < (c2.toNat - 48) * 10 ^ t2.length + 10 ^ t2.length := by omega
              _ = (c2.toNat - 48 + 1) * 10 ^ t2.length := by ring
              _ ≤ (c1.toNat - 48) * 10 ^ t2.length :=
                  Nat.mul_le_mul_right _ hdlt
              _ ≤ (c1.toNat - 48) * 10 ^ t2.length + digitsVal t1 :=
                  Nat.le_add_right _ _
          omega

/-- The string comparison SQLite uses (`ORDER BY student_id`, BINARY
collation) agrees with the numeric comparison on equal-width digit
identifiers. -/
theorem digit_strings_lt_iff (a b : String) (hlen : a.length = b.length)
    (ha : ∀ c ∈ a.data, c.isDigit) (hb : ∀ c ∈ b.data, c.isDigit) :
    a < b ↔ digitVal a < digitVal b := by
  rw [String.lt_iff_toList_lt]
  show List.Lex (· < ·) a.data b.data ↔ _
  exact digits_lex_iff a.data b.data hlen ha hb

theorem dropWhile_space_digits (l : List Char) (h : ∀ c ∈ l, c.isDigit) :
    l.dropWhile (· == ' ') = l := by
  cases l with
  | nil => rfl
  | cons c cs =>
      have hc := h c (List.mem_cons_self c cs)
      have hne : (c == ' ') = false := by
        cases hcc : c == ' '
        · rfl
        · rw [eq_of_beq hcc] at hc
          exact absurd hc (by decide)
      simp [List.dropWhile_cons, hne]

theorem stripSign_digits (l : List Char) (h : ∀ c ∈ l, c.isDigit) :
    stripSign l = (1, l) := by
  cases l with
  | nil => rfl
  | cons c cs =>
      have hc := h c (List.mem_cons_self c cs)
      have h1 : c ≠ '-' := fun he => absurd (he ▸ hc) (by decide)
      have h2 : c ≠ '+' := fun he => absurd (he ▸ hc) (by decide)
      simp [stripSign, h1, h2]

/-- `int()` on a pure digit string returns its value. -/
theorem python_int_digits (t : String) (h1 : t.data ≠ [])
    (h2 : ∀ c ∈ t.data, c.isDigit) :
    python_int t = some ((digitVal t : Nat) : Int) := by
  have hrev : ∀ c ∈ t.data.reverse, c.isDigit :=
    fun c hc => h2 c (List.mem_reverse.mp hc)
  simp only [python_int]
  rw [dropWhile_space_digits _ h2, dropWhile_space_digits _ hrev,
    List.reverse_reverse, stripSign_digits _ h2,
    if_pos ⟨h1, by simpa [List.all_eq_true] using h2⟩]
  simp [digitVal]

/-- `CAST(.. AS INTEGER)` on a pure digit string returns its value. -/
theorem sqlite_cast_int_digits (t : String) (h2 : ∀ c ∈ t.data, c.isDigit) :
    sqlite_cast_int t = ((digitVal t : Nat) : Int) := by
  simp only [sqlite_cast_int]
  rw [dropWhile_space_digits _ h2, stripSign_digits _ h2]
  have htake : t.data.takeWhile (·.isDigit) = t.data := by
    rw [List.takeWhile_eq_self_iff]
    exact h2
  rw [htake]
  simp [digitVal]

/-! ## Claim C9 -/

/-- C9: on a roster of fixed-width numeric identifiers,
`get_students_by_id_range(start, end)` returns exactly the students whose
identifier, compared as an integer, lies in `[start, end]` inclusive, and
the result is ordered by identifier ascending (numerically — which for
fixed-width digit identifiers coincides with the lexicographic
`ORDER BY student_id` the SQL executes) regardless of stored order. -/
theorem get_students_by_id_range_spec (s : DBState) (start_id end_id : String)
    (w : Nat) (hWF : WF s)
    (hids : ∀ st ∈ s.students, st.student_id.data ≠ [] ∧
      (∀ c ∈ st.student_id.data, c.isDigit) ∧ st.student_id.length = w)
    (hs : start_id.data ≠ [] ∧ ∀ c ∈ start_id.data, c.isDigit)
    (he : end_id.data ≠ [] ∧ ∀ c ∈ end_id.data, c.isDigit) :
    ∃ l, get_students_by_id_range s start_id end_id = some l ∧
      (∀ st, st ∈ l ↔ (st ∈ s.students ∧
        digitVal start_id ≤ digitVal st.student_id ∧
        digitVal st.student_id ≤ digitVal end_id)) ∧
      l.Pairwise (fun a b => digitVal a.student_id < digitVal b.student_id) := by
  have hps := python_int_digits start_id hs.1 hs.2
  have hpe := python_int_digits end_id he.1 he.2
  have hget : get_students_by_id_range s start_id end_id =
      some ((s.students.filter (fun st =>
        (digitVal start_id : Int) ≤ sqlite_cast_int st.student_id ∧
          sqlite_cast_int st.student_id ≤ (digitVal end_id : Int))).insertionSort
        idLe) := by
    unfold get_students_by_id_range
    rw [hps, hpe]
  refine ⟨_, hget, ?_, ?_⟩
  · intro st
    rw [List.mem_insertionSort, List.mem_filter]
    constructor
    · rintro ⟨hmem, hcond⟩
      have hd := hids st hmem
      rw [decide_eq_true_eq, sqlite_cast_int_digits _ hd.2.1] at hcond
      exact ⟨hmem, by exact_mod_cast hcond.1, by exact_mod_cast hcond.2⟩
    · rintro ⟨hmem, hlo, hhi⟩
      have hd := hids st hmem
      refine ⟨hmem, ?_⟩
      rw [decide_eq_true_eq, sqlite_cast_int_digits _ hd.2.1]
      exact ⟨by exact_mod_cast hlo, by exact_mod_cast hhi⟩
  · have hsorted := List.sorted_insertionSort idLe (s.students.filter (fun st =>
      (digitVal start_id : Int) ≤ sqlite_cast_int st.student_id ∧
        sqlite_cast_int st.student_id ≤ (digitVal end_id : Int)))
    have hperm := List.perm_insertionSort idLe (s.students.filter (fun st =>
      (digitVal start_id : Int) ≤ sqlite_cast_int st.student_id ∧
        sqlite_cast_int st.student_id ≤ (digitVal end_id : Int)))
    have hnodup : ((s.students.filter (fun st =>
        (digitVal start_id : Int) ≤ sqlite_cast_int st.student_id ∧
          sqlite_cast_int st.student_id ≤ (digitVal end_id : Int))).map
        (·.student_id)).Nodup :=
      ((List.filter_sublist _).map _).nodup hWF.1
    have hnodup2 := ((hperm.map (·.student_id)).nodup_iff).mpr hnodup
    unfold List.Nodup at hnodup2
    rw [List.pairwise_map] at hnodup2
    refine (hsorted.and hnodup2).imp_of_mem ?_
    intro a b ha hb hab
    have haS : a ∈ s.students :=
      (List.mem_filter.mp ((List.mem_insertionSort idLe).mp ha)).1
    have hbS : b ∈ s.students :=
      (List.mem_filter.mp ((List.mem_insertionSort idLe).mp hb)).1
    have hda := hids a haS
    have hdb := hids b hbS
    have hlt : a.student_id < b.student_id := lt_of_le_of_ne hab.1 hab.2
    exact (digit_strings_lt_iff a.student_id b.student_id
      (by rw [hda.2.2, hdb.2.2]) hda.2.1 hdb.2.1).mp hlt

/-- Roster stored out of order, for the C9 scenario. -/
def exS9 : DBState :=
  ⟨[⟨"202303", "Li", "2023"⟩, ⟨"202301", "Zhang", "2023"⟩,
    ⟨"202399", "Wang", "2023"⟩], [], [], 1, 1⟩

/-- C9 witness: the spec scenario `getStudentsByIdRange("202301","202305")`
on a three-student roster stored out of order. -/
theorem get_students_by_id_range_spec_witness :
    WF exS9 ∧
    (∀ st ∈ exS9.students, st.student_id.data ≠ [] ∧
      (∀ c ∈ st.student_id.data, c.isDigit) ∧ st.student_id.length = 6) ∧
    (("202301" : String).data ≠ [] ∧ ∀ c ∈ ("202301" : String).data, c.isDigit) ∧
    (("202305" : String).data ≠ [] ∧ ∀ c ∈ ("202305" : String).data, c.isDigit) ∧
    (∃ l, get_students_by_id_range exS9 "202301" "202305" = some l ∧
      (∀ st, st ∈ l ↔ (st ∈ exS9.students ∧
        digitVal "202301" ≤ digitVal st.student_id ∧
        digitVal st.student_id ≤ digitVal "202305")) ∧
      l.Pairwise (fun a b => digitVal a.student_id < digitVal b.student_id)) :=
  ⟨by decide, by decide, by decide, by decide,
    get_students_by_id_range_spec exS9 "202301" "202305" 6
      (by decide) (by decide) (by decide) (by decide)⟩

/-! ## Claim C7 -/

/-- C7 counterexample: with an empty roster, `submit_student` for the
unknown student id `202399` is NOT a no-op — SQLite foreign keys are not
enabled, so the INSERT succeeds and an orphan `task_details` row is
created. -/
theorem submit_unknown_student_not_noop :
    submit_student 5 exS0 1 "202399" ≠ exS0 ∧
    (submit_student 5 exS0 1 "202399").task_details =
      [⟨1, 1, "202399", "submitted", none, 5⟩] := by
  exact ⟨by decide, by decide⟩

/-- C7 amended: for a student id absent from the roster,
`submit_student` still upserts a `task_details` row for that id with
`status='submitted'` (the database state does change), but the row is
invisible to `get_task_details`, which joins against the `students`
table: the unknown id appears in none of its rows — so the call is a
no-op only as observed through the query surface, not on the stored
state. -/
theorem submit_unknown_student_inserts (now now2 : Nat) (s : DBState)
    (tid : Nat) (sid : String)
    (h : sid ∉ s.students.map (·.student_id)) :
    (submit_student now s tid sid).students = s.students ∧
    (submit_student now s tid sid).tasks = s.tasks ∧
    (∃ r, joinDetail (submit_student now s tid sid) tid sid = some r ∧
      r.status = "submitted") ∧
    sid ∉ ((get_task_details now2 (submit_student now s tid sid) tid).1.map
      (·.student_id)) := by
  refine ⟨submit_student_students now s tid sid,
    submit_student_tasks now s tid sid, ?_, ?_⟩
  · obtain ⟨r, hr, hrs, _⟩ := joinDetail_submit now s tid sid
    exact ⟨r, hr, hrs⟩
  · intro hmem
    rw [List.mem_map] at hmem
    obtain ⟨r, hr, hrid⟩ := hmem
    obtain ⟨st, hst, hrid2, _, _⟩ :=
      mem_get_task_details now2 (submit_student now s tid sid) tid r hr
    rw [submit_student_students] at hst
    exact h (List.mem_map.mpr ⟨st, hst, by rw [← hrid2, hrid]⟩)

/-- C7 witness: the amended statement at the empty-roster state and the
unknown id `202399`. -/
theorem submit_unknown_student_inserts_witness :
    "202399" ∉ exS0.students.map (·.student_id) ∧
    ((submit_student 5 exS0 1 "202399").students = exS0.students ∧
    (submit_student 5 exS0 1 "202399").tasks = exS0.tasks ∧
    (∃ r, joinDetail (submit_student 5 exS0 1 "202399") 1 "202399" = some r ∧
      r.status = "submitted") ∧
    "202399" ∉ ((get_task_details 6 (submit_student 5 exS0 1 "202399") 1).1.map
      (·.student_id))) :=
  ⟨by decide, submit_unknown_student_inserts 5 6 exS0 1 "202399" (by decide)⟩

/-! ## Claim C2 -/

/-- Once the argument string parses as JSON, nothing escapes the
dispatcher: the `try` block converts every fault into an `ok` textual
result. -/
theorem execute_tool_ok_of_parse (now : Nat) (ctx : MainCtx) (db : DBState)
    (tc : ToolCall) (h : (json_loads tc.arguments).isSome) :
    ∃ out, execute_tool now ctx db tc = .ok out := by
  unfold execute_tool
  obtain ⟨args, hargs⟩ := Option.isSome_iff_exists.mp h
  rw [hargs]
  cases hbody : executeBody now ctx db tc.name args with
  | ok r =>
      refine ⟨r, ?_⟩
      simp [hbody]
  | error e =>
      refine ⟨("执行工具 " ++ tc.name ++ " 时出错: " ++ e, db), ?_⟩
      simp [hbody]

/-- C2 evaluation at the failing input: a tool call whose argument string
is not parseable JSON makes `_execute_tool` raise (the `json.loads` sits
above the `try` block), escaping to the caller — the claim that the
dispatcher never raises is false on the code.  An unknown tool name and a
parseable-but-incomplete argument object, by contrast, do come back as
`ok` error strings. -/
theorem execute_tool_raises_on_bad_json :
    execute_tool 5 exCtx exS1 ⟨"call_1", "get_student_info", "not json"⟩ =
      .error .jsonDecodeError ∧
    execute_tool 5 exCtx exS1 ⟨"call_2", "unknown_tool_name", "\x7b\x7d"⟩ =
      .ok ("未知工具: unknown_tool_name", exS1) ∧
    execute_tool 5 exCtx exS1 ⟨"call_3", "get_student_info", "\x7b\x7d"⟩ =
      .ok ("执行工具 get_student_info 时出错: " ++ keyErrStr "student_id",
        exS1) :=
  ⟨rfl, rfl, rfl⟩

/-! ## Claim C3 -/

/-- C3 counterexample: cancelling mid-stream does NOT leave the history
at its pre-`send_message` length — `send_message` appends the user turn
before the worker thread starts, so the history has grown by one. -/
theorem cancel_midstream_history_grows :
    ((send_message_run 5 exCtx exS1 [] "hello"
        [⟨[⟨some "he", [], none⟩], some 1⟩]).2.1).length ≠
      ([] : List Msg).length := by
  decide

/-- C3 amended: cancelling during the first round's stream commits no
assistant turn at all — the history afterwards is exactly the old history
plus the user turn `send_message` itself appended (length old + 1, not
old) — and a subsequent `send_message` proceeds normally (a cancel-free
single-round script appends exactly its user turn and the assistant
reply). -/
theorem cancel_midstream_commits_only_user_turn (now : Nat) (ctx : MainCtx)
    (db : DBState) (msgs : List Msg) (input : String)
    (chunks : List StreamChunk) (j : Nat) :
    send_message_run now ctx db msgs input [⟨chunks, some j⟩] =
      (db, msgs ++ [.user input], .cancelled) ∧
    (send_message_run now ctx db msgs input [⟨chunks, some j⟩]).2.1.length =
      msgs.length + 1 ∧
    (∀ input2 reply : String,
      send_message_run now ctx db (msgs ++ [.user input]) input2
          [⟨[⟨some reply, [], some "stop"⟩], none⟩] =
        (db, msgs ++ [.user input] ++ [.user input2, .assistant reply],
          .completed)) := by
  have h1 : send_message_run now ctx db msgs input [⟨chunks, some j⟩] =
      (db, msgs ++ [.user input], .cancelled) := by
    unfold send_message_run runRounds processChunks
    simp
  refine ⟨h1, by rw [h1]; simp, ?_⟩
  intro input2 reply
  unfold send_message_run runRounds processChunks
  simp [mergeDelta, String.join]

end AssignFlow
